import Mathlib

/-!
Verification development for the user-authentication-service repository.

The Go sources are shallowly embedded as follows:
* the relational store (tables `users`, `tokens`, `user_permissions` from
  `migrations/000001_init_db.up.sql`) is a `DBState` record of row lists;
* each model method (`internal/db`) is a pure function from a `DBState`
  and its arguments to `Except DBError` of its results; `database/sql`'s
  `Exec` for `UPDATE`/`DELETE` never reports "no rows", so the model of
  such a statement always succeeds, mirroring the driver;
* the seeded lookup tables `permissions` and `scopes` are embedded as the
  enumerated types `Permission` and `TokenScope`;
* timestamps and durations are integers (seconds); `time.Now()` becomes an
  explicit `now` argument;
* bcrypt (`golang.org/x/crypto/bcrypt`) is idealized: a digest is the record
  of cost, salt and hashed input, and `CompareHashAndPassword` succeeds
  exactly when the candidate equals the hashed input;
* SHA-256 (`crypto/sha256`) is idealized as an injective wrapper of the
  preimage string;
* the 16 random bytes drawn by the token generator appear as an explicit
  `plain` argument (an entropy oracle), and transient storage failures of
  individual statements are injected through an `InfraOracle`;
* Go's `len` on strings counts bytes, so string-length checks use
  `String.utf8ByteSize`.

A central fact of the source, reflected in the handler embeddings: each HTTP
handler in `cmd/web/handlers.go` that opens a transaction does so with
`tx, _ := app.models.DB.Begin()` and then never uses `tx` again - every model
call goes through `app.models.Users`/`Tokens`/`Permissions`, all of which hold
the shared `*sql.DB` pool (`internal/db/models.go`). Statements issued on the
pool auto-commit individually, so `tx.Rollback()` and `tx.Commit()` operate on
an empty transaction. The embedding therefore applies every step directly to
the shared state, and a mid-workflow failure leaves the effects of the earlier
steps in place.
-/

/-! ## Validator (`internal/validator/validator.go`)

The Go `Validator` is a `map[string]string` whose `AddError` keeps the first
message per field; it is modelled as an association list with first-wins
insertion. -/

structure Validator where
  Errors : List (String × String)
deriving DecidableEq, Repr

def Validator.New : Validator := ⟨[]⟩

def Validator.Valid (v : Validator) : Bool := v.Errors.isEmpty

def Validator.AddError (v : Validator) (field msg : String) : Validator :=
  if v.Errors.any (fun e => decide (e.1 = field)) then v
  else ⟨v.Errors ++ [(field, msg)]⟩

def Validator.Check (v : Validator) (ok : Bool) (field msg : String) : Validator :=
  if ok then v else v.AddError field msg

def Validator.CheckStringLength (s : String) (lo hi : Nat) : Bool :=
  decide (lo ≤ s.utf8ByteSize) && decide (s.utf8ByteSize ≤ hi)

/-! ## Regular expressions (`internal/db`, users.go)

The anchored patterns `UsernameRX`, `EmailRX` and the four character-class
searches are embedded as executable character predicates; an anchored
`X+@Y+\.Z` pattern is matched by searching over the split positions, which is
exactly the existential semantics of a regex match. -/

def isLocalChar (c : Char) : Bool :=
  c.isAlpha || c.isDigit || c == '.' || c == '_' || c == '%' || c == '+' || c == '-'

def isDomainChar (c : Char) : Bool :=
  c.isAlpha || c.isDigit || c == '.' || c == '-'

def domainMatch (cs : List Char) : Bool :=
  (List.range cs.length).any fun j =>
    decide (0 < j) && (cs.take j).all isDomainChar &&
      (match cs.drop j with
       | '.' :: tld => decide (2 ≤ tld.length) && tld.all Char.isAlpha
       | _ => false)

def emailMatch (s : String) : Bool :=
  let cs := s.data
  (List.range (cs.length + 1)).any fun i =>
    decide (0 < i) && (cs.take i).all isLocalChar &&
      (match cs.drop i with
       | '@' :: rest => domainMatch rest
       | _ => false)

def usernameMatch (s : String) : Bool :=
  decide (s.data ≠ []) && s.data.all (fun c => c.isAlpha || c.isDigit)

def isPasswordSymbol (c : Char) : Bool :=
  c == '#' || c == '?' || c == '!' || c == '@' || c == '$' || c == '%' ||
  c == '^' || c == '&' || c == '*' || c == '_' || c == '\\' || c == '-'

/-! ## Credential hasher (`internal/db`, users.go: `Password`)

`bcrypt.GenerateFromPassword` is modelled as an ideal salted one-way function:
the digest records the cost, the salt and the hashed input, and
`CompareHashAndPassword` succeeds exactly when the candidate equals the hashed
input (the idealization assumes collision freedom). `GenerateFromPassword`
fails only on entropy exhaustion, which the model leaves out, so `Set` is
total; the salt is an explicit argument. A mismatch in `Compare` is Go's
`bcrypt.ErrMismatchedHashAndPassword`, which the source maps to
`(false, nil)`; comparing against a missing (nil) hash is a structural error. -/

structure BcryptDigest where
  cost : Nat
  salt : Nat
  input : String
deriving DecidableEq, Repr

inductive BcryptError
  | structuralError
deriving DecidableEq, Repr

structure Password where
  Plain : Option String
  hash : Option BcryptDigest
deriving DecidableEq, Repr

def Password.Set (plain : String) (salt : Nat) : Password :=
  ⟨some plain, some ⟨12, salt, plain⟩⟩

def Password.Compare (p : Password) (plain : String) : Bool × Option BcryptError :=
  match p.hash with
  | none => (false, some BcryptError.structuralError)
  | some d => if plain = d.input then (true, none) else (false, none)

/-! ## Account entity and validation profiles (`internal/db`, users.go)

The Go `User` carries a `*Validator` that each validation profile overwrites;
the embedding instead returns the resulting `Validator`. `CreatedAt` is not
read by any workflow and is omitted. -/

structure User where
  ID : Nat
  Username : String
  Email : String
  Password : Password
  Activated : Bool
  Version : Nat
deriving DecidableEq, Repr

def passwordPolicy (p : String) : Bool :=
  decide (8 ≤ p.utf8ByteSize) && decide (p.utf8ByteSize ≤ 72) &&
  p.data.any Char.isUpper && p.data.any Char.isLower &&
  p.data.any Char.isDigit && p.data.any isPasswordSymbol

def User.validateUsername (u : User) (v : Validator) : Validator :=
  let v := v.Check (decide (u.Username ≠ "")) "username" "must be provided"
  let v := v.Check (Validator.CheckStringLength u.Username 3 25) "username"
    "must be 3-25 characters long"
  v.Check (usernameMatch u.Username) "username" "must contain only letters and numbers"

def User.validateEmail (u : User) (v : Validator) : Validator :=
  let v := v.Check (decide (u.Email ≠ "")) "email" "must be provided"
  v.Check (emailMatch u.Email) "email" "must be a valid email address"

/-- `validatePassword` returns early when the plaintext pointer is nil. -/
def User.validatePassword (u : User) (v : Validator) : Validator :=
  match u.Password.Plain with
  | none => v
  | some plain => v.Check (passwordPolicy plain) "password"
      "must be 8-72 characters long and contain at least one uppercase letter, one lowercase letter, one number, and one symbol"

def User.ValidateUser (u : User) : Validator :=
  u.validatePassword (u.validateEmail (u.validateUsername Validator.New))

def User.ValidateEmail (u : User) : Validator :=
  u.validateEmail Validator.New

def User.ValidatePassword (u : User) : Validator :=
  u.validatePassword Validator.New

def User.ValidateLoginUser (u : User) : Validator :=
  u.validatePassword (u.validateUsername Validator.New)

/-- `ValidateUpdateUser` evaluates `*u.Password.Plain != ""` - a raw pointer
dereference with no nil guard. A nil plaintext pointer therefore panics, which
the embedding records as `none`; `some v` is normal completion with the
resulting validator. -/
def User.ValidateUpdateUser (u : User) : Option Validator :=
  let v := Validator.New
  let v := if u.Email ≠ "" then u.validateEmail v else v
  match u.Password.Plain with
  | none => none
  | some plain => some (if plain ≠ "" then u.validatePassword v else v)

/-! ## Token codec (`internal/db`, tokens.go) -/

inductive TokenScope
  | access
  | refresh
  | activation
  | resetPwd
deriving DecidableEq, Repr

def TokenScope.name : TokenScope → String
  | access => "token:access"
  | refresh => "token:refresh"
  | activation => "token:activate"
  | resetPwd => "token:resetpwd"

/-- Durations in seconds: access 24h, refresh 7d, activation 3d, reset 1h. -/
def AuthTokenTime : Int := 24 * 60 * 60

def RefreshTokenTime : Int := 7 * 24 * 60 * 60

def ActivationTokenTime : Int := 3 * 24 * 60 * 60

def ResetPwdTokenTime : Int := 60 * 60

/-- SHA-256 idealized as an injective wrapper of the preimage. -/
structure Sha256Digest where
  preimage : String
deriving DecidableEq, Repr

def HashToken (token : String) : Sha256Digest := ⟨token⟩

structure Token where
  Plain : String
  Hash : Sha256Digest
  UserID : Nat
  Expiry : Int
  Scope : TokenScope
deriving DecidableEq, Repr

/-- `new(userID, ttl, scope)`: the base32 plaintext produced from the 16
random bytes is the explicit `plain` argument. -/
def Token.newToken (userID : Nat) (ttl : Int) (scope : TokenScope)
    (plain : String) (now : Int) : Token :=
  ⟨plain, HashToken plain, userID, now + ttl, scope⟩

/-- The two checks of `Token.ValidateToken`, on the plaintext they inspect. -/
def validateTokenPlain (plain : String) : Validator :=
  let v := Validator.New
  let v := v.Check (decide (plain ≠ "")) "token" "must be provided"
  v.Check (decide (plain.utf8ByteSize = 26)) "token" "must be 26 bytes long"

def Token.ValidateToken (t : Token) : Validator := validateTokenPlain t.Plain

/-- The base32 no-padding alphabet used by the generator (`A`-`Z`, `2`-`7`). -/
def isBase32Char (c : Char) : Bool :=
  ('A' ≤ c && c ≤ 'Z') || ('2' ≤ c && c ≤ '7')

/-! ## Storage rows and state (`migrations/000001_init_db.up.sql`) -/

inductive Permission
  | readUser
  | writeUser
deriving DecidableEq, Repr

def Permission.name : Permission → String
  | readUser => "user:read"
  | writeUser => "user:write"

/-- Rows of the seeded `permissions` table. -/
def permissionsTable : List Permission := [Permission.readUser, Permission.writeUser]

structure UserRow where
  id : Nat
  username : String
  email : String
  passwordHash : Option BcryptDigest
  activated : Bool
  version : Nat
deriving DecidableEq, Repr

structure TokenRow where
  hash : Sha256Digest
  userId : Nat
  expiry : Int
  scope : TokenScope
deriving DecidableEq, Repr

structure DBState where
  users : List UserRow
  tokens : List TokenRow
  userPermissions : List (Nat × Permission)
  nextUserId : Nat
deriving DecidableEq, Repr

inductive DBError
  | notFound
  | duplicateUsername
  | duplicateEmail
  | uniqueViolation (constraint : String)
deriving DecidableEq, Repr

/-- `email` is `CITEXT`: uniqueness and lookups are case-insensitive
(lower-casing character by character). -/
def emailEq (a b : String) : Bool :=
  decide (a.data.map Char.toLower = b.data.map Char.toLower)

instance {ε α : Type} [DecidableEq ε] [DecidableEq α] : DecidableEq (Except ε α) :=
  fun x y =>
    match x, y with
    | Except.ok a, Except.ok b => decidable_of_iff (a = b) (by simp)
    | Except.error a, Except.error b => decidable_of_iff (a = b) (by simp)
    | Except.ok _, Except.error _ => isFalse (by simp)
    | Except.error _, Except.ok _ => isFalse (by simp)

/-! ## UserModel (`internal/db`, users.go) -/

/-- `INSERT INTO users ... RETURNING id, created_at, version`; the two unique
constraints surface as `ErrDuplicateUsername` / `ErrDuplicateEmail`. The
returned `User` carries the assigned id and version, as the Go `Scan` does. -/
def UserModel.Insert (s : DBState) (u : User) : Except DBError (User × DBState) :=
  if s.users.any (fun r => decide (r.username = u.Username)) then
    Except.error DBError.duplicateUsername
  else if s.users.any (fun r => emailEq r.email u.Email) then
    Except.error DBError.duplicateEmail
  else
    Except.ok ({ u with ID := s.nextUserId, Version := 1 },
      { s with
          users := s.users ++ [⟨s.nextUserId, u.Username, u.Email, u.Password.hash, false, 1⟩],
          nextUserId := s.nextUserId + 1 })

/-- `SELECT id, username, email, activated, password_hash, version FROM users
WHERE username = $1`. -/
def UserModel.GetByUsername (s : DBState) (username : String) : Except DBError User :=
  match s.users.find? (fun r => decide (r.username = username)) with
  | none => Except.error DBError.notFound
  | some r => Except.ok ⟨r.id, r.username, r.email, ⟨none, r.passwordHash⟩, r.activated, r.version⟩

/-- `SELECT id, username, email, activated FROM users WHERE email = $1`;
the hash and version columns are not selected. -/
def UserModel.GetByEmail (s : DBState) (email : String) : Except DBError User :=
  match s.users.find? (fun r => emailEq r.email email) with
  | none => Except.error DBError.notFound
  | some r => Except.ok ⟨r.id, r.username, r.email, ⟨none, none⟩, r.activated, 0⟩

/-- `UPDATE users SET email = $1, password_hash = $2, version = version + 1
WHERE id = $3 AND version = $4 RETURNING version`. The statement does not
touch the `activated` column. Zero matched rows is `sql.ErrNoRows` for the
`RETURNING` scan, reported as `ErrNotFound`; on error no new state is
produced (the single failed statement has no effect). -/
def UserModel.Update (s : DBState) (u : User) : Except DBError (Nat × DBState) :=
  match s.users.find? (fun r => decide (r.id = u.ID ∧ r.version = u.Version)) with
  | none => Except.error DBError.notFound
  | some _ =>
    if s.users.any (fun r => decide (r.id ≠ u.ID) && emailEq r.email u.Email) then
      Except.error DBError.duplicateEmail
    else
      Except.ok (u.Version + 1,
        { s with users := s.users.map (fun r =>
            if r.id = u.ID ∧ r.version = u.Version then
              { r with email := u.Email, passwordHash := u.Password.hash,
                       version := r.version + 1 }
            else r) })

/-- `DELETE FROM users WHERE id = $1` via `ExecContext`: the affected-row
count is discarded and `Exec` never returns `sql.ErrNoRows`, so the
`ErrNotFound` branch of the source is unreachable and the call always
succeeds. The schema's `ON DELETE CASCADE` removes the user's tokens and
permission rows. -/
def UserModel.Delete (s : DBState) (id : Nat) : Except DBError DBState :=
  Except.ok
    { s with
        users := s.users.filter (fun r => decide (r.id ≠ id)),
        tokens := s.tokens.filter (fun t => decide (t.userId ≠ id)),
        userPermissions := s.userPermissions.filter (fun p => decide (p.1 ≠ id)) }

/-- `UPDATE users SET activated = TRUE WHERE id = $1` via `ExecContext`: no
version condition, no version change, affected-row count discarded, so the
call always succeeds and the `ErrNotFound` branch is unreachable. -/
def UserModel.Activate (s : DBState) (userID : Nat) : Except DBError DBState :=
  Except.ok
    { s with users := s.users.map (fun r =>
        if r.id = userID then { r with activated := true } else r) }

/-- `SELECT u.id, u.username, u.email, u.activated FROM users u INNER JOIN
tokens t ... WHERE t.hash = $1 AND s.name = $2 AND t.expiry > $3` - the
authentication-path lookup, whose single predicate includes liveness. -/
def UserModel.GetToken (s : DBState) (tokenScope : TokenScope) (tokenHash : Sha256Digest)
    (now : Int) : Except DBError User :=
  match s.tokens.find? (fun t =>
      decide (t.hash = tokenHash ∧ t.scope = tokenScope ∧ now < t.expiry)) with
  | none => Except.error DBError.notFound
  | some t =>
    match s.users.find? (fun r => decide (r.id = t.userId)) with
    | none => Except.error DBError.notFound
    | some r => Except.ok ⟨r.id, r.username, r.email, ⟨none, none⟩, r.activated, 0⟩

/-! ## TokenModel (`internal/db`, tokens.go) -/

/-- `INSERT INTO tokens ...`: the table's primary key is
`(user_id, scope_id)`, so inserting a second token for the same account and
scope is a unique violation. -/
def TokenModel.insert (s : DBState) (t : Token) : Except DBError DBState :=
  if s.tokens.any (fun r => decide (r.userId = t.UserID ∧ r.scope = t.Scope)) then
    Except.error (DBError.uniqueViolation "tokens_pkey")
  else
    Except.ok { s with tokens := s.tokens ++ [⟨t.Hash, t.UserID, t.Expiry, t.Scope⟩] }

def TokenModel.CreateToken (s : DBState) (userID : Nat) (ttl : Int) (scope : TokenScope)
    (plain : String) (now : Int) : Except DBError (Token × DBState) :=
  let t := Token.newToken userID ttl scope plain now
  match TokenModel.insert s t with
  | Except.error e => Except.error e
  | Except.ok s' => Except.ok (t, s')

/-- `DELETE FROM tokens WHERE user_id = $1 AND scope_id = ...` via
`ExecContext`: deleting an absent token is not an error. -/
def TokenModel.Delete (s : DBState) (userID : Nat) (scope : TokenScope) :
    Except DBError DBState :=
  Except.ok { s with tokens := s.tokens.filter (fun r =>
      decide (¬ (r.userId = userID ∧ r.scope = scope))) }

/-- `SELECT hash, user_id, expiry, scopes.name FROM tokens ... WHERE user_id =
$1 AND scopes.name = $2` - the administrative lookup, with no expiry
predicate; the plaintext is not stored, so the returned token has none. -/
def TokenModel.Get (s : DBState) (userID : Nat) (scope : TokenScope) :
    Except DBError Token :=
  match s.tokens.find? (fun r => decide (r.userId = userID ∧ r.scope = scope)) with
  | none => Except.error DBError.notFound
  | some r => Except.ok ⟨"", r.hash, r.userId, r.expiry, r.scope⟩

/-! ## PermissionModel (`internal/db`, permissions.go) -/

/-- `INSERT INTO user_permissions SELECT $1, permissions.id FROM permissions
WHERE permissions.name = ANY($2)` - a plain insert with no conflict clause.
The `SELECT` yields one row per matching row of the seeded `permissions`
table (duplicates in the argument array do not duplicate rows), and the
primary key `(user_id, permission_id)` makes the statement fail as a whole if
any produced pair already exists. -/
def PermissionModel.Add (s : DBState) (userID : Nat) (ps : List Permission) :
    Except DBError DBState :=
  let rows := (permissionsTable.filter (fun q => ps.contains q)).map (fun q => (userID, q))
  if rows.any (fun row => s.userPermissions.contains row) then
    Except.error (DBError.uniqueViolation "user_permissions_pkey")
  else
    Except.ok { s with userPermissions := s.userPermissions ++ rows }

/-! ## Lifecycle orchestrator (`cmd/web/handlers.go`)

Each handler is embedded as a function from the shared pool state and its
decoded input to a response and the resulting pool state. As explained at the
top of the file, the `sql.Tx` a handler opens is never used by any statement,
so every model call below acts directly on the shared state and `Rollback` /
`Commit` are no-ops; the `-- tx` comments mark where the source opens and
commits the unused transaction. `InfraOracle` injects transient storage
failures of individual statements (the `default:` → `serverErrorResponse`
branches); a statement that fails transiently has no effect on the state. -/

inductive HResponse
  | created (token : String)
  | okMsg (msg : String)
  | okToken (token : String)
  | okUser (u : User)
  | failedValidation (errors : List (String × String))
  | invalidCredentials
  | invalidAuthenticationToken
  | unauthorizedAction
  | serverError
deriving DecidableEq, Repr

structure InfraOracle where
  insertFails : Bool
  permAddFails : Bool
  createTokenFails : Bool
deriving DecidableEq, Repr

/-- No transient storage failures. -/
def happyInfra : InfraOracle := ⟨false, false, false⟩

structure createUserInput where
  username : String
  email : String
  password : String
deriving DecidableEq, Repr

/-- `createUserHandler` (registration): validate, hash, then
`DB.Begin` / `Users.Insert` / `Permissions.Add(read)` /
`Tokens.CreateToken(activation)` / `tx.Commit`. All four statements run on
the pool, not on `tx`. -/
def createUserHandler (s : DBState) (input : createUserInput) (oracle : InfraOracle)
    (tokenPlain : String) (salt : Nat) (now : Int) : HResponse × DBState :=
  let user : User := ⟨0, input.username, input.email, ⟨some input.password, none⟩, false, 0⟩
  let v := user.ValidateUser
  if ¬ v.Valid then (HResponse.failedValidation v.Errors, s) else
  let user := { user with Password := Password.Set input.password salt }
  -- tx := app.models.DB.Begin(); defer tx.Rollback()
  if oracle.insertFails then (HResponse.serverError, s) else
  match UserModel.Insert s user with
  | Except.error DBError.duplicateUsername =>
      (HResponse.failedValidation
        (v.AddError "username" "a user with this username already exists").Errors, s)
  | Except.error DBError.duplicateEmail =>
      (HResponse.failedValidation
        (v.AddError "email" "a user with this email address already exists").Errors, s)
  | Except.error _ => (HResponse.serverError, s)
  | Except.ok (user, s1) =>
    if oracle.permAddFails then (HResponse.serverError, s1) else
    match PermissionModel.Add s1 user.ID [Permission.readUser] with
    | Except.error _ => (HResponse.serverError, s1)
    | Except.ok s2 =>
      if oracle.createTokenFails then (HResponse.serverError, s2) else
      match TokenModel.CreateToken s2 user.ID ActivationTokenTime TokenScope.activation
          tokenPlain now with
      | Except.error _ => (HResponse.serverError, s2)
      | Except.ok (token, s3) =>
        -- tx.Commit() commits the empty transaction
        (HResponse.created token.Plain, s3)

/-- `activateUserHandler`: validate token format, resolve the account through
the unexpired activation token, set `activated`, grant the write capability,
delete the activation token. -/
def activateUserHandler (s : DBState) (inputToken : String) (now : Int) :
    HResponse × DBState :=
  let v := validateTokenPlain inputToken
  if ¬ v.Valid then (HResponse.failedValidation v.Errors, s) else
  let tokenHash := HashToken inputToken
  -- tx := app.models.DB.Begin(); defer tx.Rollback()
  match UserModel.GetToken s TokenScope.activation tokenHash now with
  | Except.error DBError.notFound =>
      (HResponse.failedValidation [("token", "invalid or expired activation token")], s)
  | Except.error _ => (HResponse.serverError, s)
  | Except.ok user =>
    match UserModel.Activate s user.ID with
    | Except.error _ => (HResponse.serverError, s)
    | Except.ok s1 =>
      match PermissionModel.Add s1 user.ID [Permission.writeUser] with
      | Except.error _ => (HResponse.serverError, s1)
      | Except.ok s2 =>
        match TokenModel.Delete s2 user.ID TokenScope.activation with
        | Except.error _ => (HResponse.serverError, s2)
        | Except.ok s3 =>
          -- tx.Commit() commits the empty transaction
          (HResponse.okMsg "user account successfully activated", s3)

/-- Tail of `requestPasswordResetHandler` after the optional delete: mint the
new reset token. -/
def requestPasswordResetFinish (s : DBState) (userID : Nat) (oracle : InfraOracle)
    (tokenPlain : String) (now : Int) : HResponse × DBState :=
  if oracle.createTokenFails then (HResponse.serverError, s) else
  match TokenModel.CreateToken s userID ResetPwdTokenTime TokenScope.resetPwd
      tokenPlain now with
  | Except.error _ => (HResponse.serverError, s)
  | Except.ok (token, s') => (HResponse.okToken token.Plain, s')

/-- `requestPasswordResetHandler`: resolve the account by email, delete any
pre-existing reset token, mint a new one. This handler opens no transaction
at all in the source. -/
def requestPasswordResetHandler (s : DBState) (email : String) (oracle : InfraOracle)
    (tokenPlain : String) (now : Int) : HResponse × DBState :=
  let dbUser : User := ⟨0, "", email, ⟨none, none⟩, false, 0⟩
  let v := dbUser.ValidateEmail
  if ¬ v.Valid then (HResponse.failedValidation v.Errors, s) else
  match UserModel.GetByEmail s email with
  | Except.error DBError.notFound => (HResponse.invalidCredentials, s)
  | Except.error _ => (HResponse.serverError, s)
  | Except.ok user =>
    match TokenModel.Get s user.ID TokenScope.resetPwd with
    | Except.error DBError.notFound =>
        -- prevToken == nil: skip the delete
        requestPasswordResetFinish s user.ID oracle tokenPlain now
    | Except.error _ => (HResponse.serverError, s)
    | Except.ok _ =>
      match TokenModel.Delete s user.ID TokenScope.resetPwd with
      | Except.error _ => (HResponse.serverError, s)
      | Except.ok s1 => requestPasswordResetFinish s1 user.ID oracle tokenPlain now

structure updateAccountInput where
  email : String
  password : String
deriving DecidableEq, Repr

/-- Tail of `updateAccountHandler` after the optional delete of a
pre-existing activation token: mint the new activation token and reply with
the in-memory `dbUser`. -/
def updateAccountFinish (s : DBState) (dbUser : User) (newTokenPlain : String)
    (now : Int) : HResponse × DBState :=
  match TokenModel.CreateToken s dbUser.ID ActivationTokenTime TokenScope.activation
      newTokenPlain now with
  | Except.error _ => (HResponse.serverError, s)
  | Except.ok (_, s') =>
    -- tx.Commit() commits the empty transaction
    (HResponse.okUser dbUser, s')

/-- `updateAccountHandler`: guard that the caller is the target account,
validate the update profile, fetch the stored row, apply the changes to the
in-memory copy (forcing `Activated := false` on an email change), run the
version-checked `Users.Update` - whose SQL does not write the `activated`
column - then replace the activation token. In the source the duplicate-key
branches call `AddError` on `dbUser.Validator`, which is nil (a panic the
`recoverPanic` middleware turns into a server error), so those branches are
embedded as `serverError`. -/
def updateAccountHandler (s : DBState) (ctxUsername paramUsername : String)
    (input : updateAccountInput) (salt : Nat) (newTokenPlain : String) (now : Int) :
    HResponse × DBState :=
  if ctxUsername ≠ paramUsername then (HResponse.unauthorizedAction, s) else
  let inputUser : User := ⟨0, "", input.email, ⟨some input.password, none⟩, false, 0⟩
  match inputUser.ValidateUpdateUser with
  | none => (HResponse.serverError, s)
  | some v =>
  if ¬ v.Valid then (HResponse.failedValidation v.Errors, s) else
  match UserModel.GetByUsername s ctxUsername with
  | Except.error DBError.notFound => (HResponse.invalidAuthenticationToken, s)
  | Except.error _ => (HResponse.serverError, s)
  | Except.ok dbUser =>
    let dbUser := if input.password ≠ "" then
        { dbUser with Password := Password.Set input.password salt } else dbUser
    let dbUser := if inputUser.Email ≠ "" then
        { dbUser with Email := inputUser.Email, Activated := false } else dbUser
    -- tx := app.models.DB.Begin(); defer tx.Rollback()
    match UserModel.Update s dbUser with
    | Except.error DBError.notFound => (HResponse.serverError, s)
    | Except.error _ => (HResponse.serverError, s)
    | Except.ok (newVersion, s1) =>
      let dbUser := { dbUser with Version := newVersion }
      match TokenModel.Get s1 dbUser.ID TokenScope.activation with
      | Except.error DBError.notFound =>
          -- token == nil: skip the delete
          updateAccountFinish s1 dbUser newTokenPlain now
      | Except.error _ => (HResponse.serverError, s1)
      | Except.ok _ =>
        match TokenModel.Delete s1 dbUser.ID TokenScope.activation with
        | Except.error _ => (HResponse.serverError, s1)
        | Except.ok s2 => updateAccountFinish s2 dbUser newTokenPlain now

/-! ## Concrete fixtures used by the closed theorems and witnesses -/

def emptyState : DBState := ⟨[], [], [], 1⟩

def bobInput : createUserInput := ⟨"bob", "bob@example.com", "Abcdef1!"⟩

/-- A 26-character plaintext from the base32 alphabet. -/
def tokA : String := "AAAAAAAAAAAAAAAAAAAAAAAAAA"

def tokB : String := "BBBBBBBBBBBBBBBBBBBBBBBBBB"

def tokC : String := "CCCCCCCCCCCCCCCCCCCCCCCCCC"

/-- The permission-grant statement fails transiently. -/
def permFailOracle : InfraOracle := ⟨false, true, false⟩

/-- The token-insert statement fails transiently. -/
def mintFailOracle : InfraOracle := ⟨false, false, true⟩

/-- One account that already holds a password-reset token. -/
def resetState : DBState :=
  ⟨[⟨1, "carol", "carol@example.com", none, true, 1⟩],
   [⟨⟨"OLDRESETTOKEN"⟩, 1, 100, TokenScope.resetPwd⟩], [], 2⟩

/-- One unactivated account holding a live activation token for `tokA` and
the read capability, as left by registration. -/
def actState : DBState :=
  ⟨[⟨1, "bob", "bob@example.com", none, false, 1⟩],
   [⟨HashToken "AAAAAAAAAAAAAAAAAAAAAAAAAA", 1, 10, TokenScope.activation⟩],
   [(1, Permission.readUser)], 2⟩

/-- One activated account, stored version 5, no tokens. -/
def verState : DBState := ⟨[⟨1, "dave", "d@e.com", none, false, 5⟩], [], [], 2⟩

/-- One activated account with both capabilities, no tokens. -/
def updState : DBState :=
  ⟨[⟨1, "carol", "old@example.com", some ⟨12, 7, "Oldpass1!"⟩, true, 1⟩], [],
   [(1, Permission.readUser), (1, Permission.writeUser)], 2⟩

/-- Email-only account update. -/
def updInput : updateAccountInput := ⟨"new@example.com", ""⟩

/-- 26 characters, none of them in the base32 alphabet. -/
def zeroTok : String := "00000000000000000000000000"

/-- An account that already holds the write capability and has a live
activation token for `tokC`: the state the update-account workflow leaves
behind after an activated account changes its email (re-activation is then
mandatory). -/
def reactState : DBState :=
  ⟨[⟨1, "carol", "new@example.com", none, true, 2⟩],
   [⟨HashToken "CCCCCCCCCCCCCCCCCCCCCCCCCC", 1, 259200, TokenScope.activation⟩],
   [(1, Permission.readUser), (1, Permission.writeUser)], 2⟩

/-! ## Claim theorems -/

/-- C1: the claim says every multi-row workflow runs in one storage
transaction with rollback on failure, so a failed step leaves no effect of
the earlier steps. In the source the handlers open a `sql.Tx` but run every
statement on the shared pool, so the statements auto-commit one by one.
Evaluating the embedded code at the failing inputs: (a) registration of
"bob" whose permission-grant statement fails returns a server error, yet the
inserted `users` row persists; (b) a password-reset request whose token-mint
statement fails (after the old reset token was deleted - and this handler
opens no transaction at all) returns a server error and leaves the account
with no reset token: neither the pre- nor the post-state. -/
theorem register_and_reset_not_transactional :
    ((createUserHandler emptyState bobInput permFailOracle tokA 0 0).1 =
        HResponse.serverError ∧
      (createUserHandler emptyState bobInput permFailOracle tokA 0 0).2.users.map
        (fun r => r.username) = ["bob"]) ∧
    ((requestPasswordResetHandler resetState "carol@example.com" mintFailOracle
        tokB 0).1 = HResponse.serverError ∧
      (requestPasswordResetHandler resetState "carol@example.com" mintFailOracle
        tokB 0).2.tokens = []) := by
  decide

/-- C2 counterexample: the claim extends the version discipline to "all
mutating updates of the account row, including the activation update". But
`UserModel.Activate` runs `UPDATE users SET activated = TRUE WHERE id = $1`
with no version condition and no version change: on a stored row of version
5 it succeeds (no caller version is even accepted) and leaves the version at
5 instead of 6. -/
theorem activate_not_version_conditioned_cex :
    UserModel.Activate verState 1 =
      Except.ok ⟨[⟨1, "dave", "d@e.com", none, true, 5⟩], [], [], 2⟩ := by
  decide

/-- C3 counterexample: account 1 already holds `user:read` (granted at
registration); calling `PermissionModel.Add` again with that capability hits
the `(user_id, permission_id)` primary key - the insert has no conflict
clause - and returns an error instead of succeeding. -/
theorem permission_add_duplicate_cex :
    PermissionModel.Add actState 1 [Permission.readUser] =
      Except.error (DBError.uniqueViolation "user_permissions_pkey") := by
  decide

/-- C4: evaluating the update-account workflow at the failing input - an
activated account changes its email - shows the in-memory reply carries
`Activated := false`, but the stored row still has `activated = true`,
because `UserModel.Update`'s SQL sets only `email`, `password_hash` and
`version`. The activation-token part of the claim does hold: a fresh
activation token is minted. -/
theorem update_account_email_change_keeps_activated :
    ((updateAccountHandler updState "carol" "carol" updInput 0 tokC 0).1 =
      HResponse.okUser
        ⟨1, "carol", "new@example.com", ⟨none, some ⟨12, 7, "Oldpass1!"⟩⟩, false, 2⟩) ∧
    ((updateAccountHandler updState "carol" "carol" updInput 0 tokC 0).2.users.map
        (fun r => (r.email, r.activated, r.version)) =
      [("new@example.com", true, 2)]) ∧
    ((updateAccountHandler updState "carol" "carol" updInput 0 tokC 0).2.tokens.map
        (fun t => t.scope) = [TokenScope.activation]) := by
  decide

/-- C8: evaluating `ValidateUpdateUser` at the failing input - a user whose
plaintext password pointer is nil (an email-only update built without the
handler's `&input.Password`) - the dereference `*u.Password.Plain != ""`
panics, which the embedding records as `none`: the profile does not complete
and skip the password checks as claimed. The guard the claim describes lives
only in `validatePassword`, which is never reached (second conjunct). -/
theorem validate_update_user_nil_password_panics :
    (⟨0, "", "a@b.com", ⟨none, none⟩, false, 0⟩ : User).ValidateUpdateUser = none ∧
    (∀ v : Validator,
      (⟨0, "", "a@b.com", ⟨none, none⟩, false, 0⟩ : User).validatePassword v = v) := by
  exact ⟨rfl, fun v => rfl⟩

/-- C9 counterexample: a 26-character plaintext consisting of `0`s - a
character outside the base32 no-padding alphabet - passes
`Token.ValidateToken`, which checks only non-emptiness and byte length 26;
the claimed alphabet check does not exist in the source. -/
theorem validate_token_alphabet_cex :
    (validateTokenPlain zeroTok).Valid = true ∧
    zeroTok.data.all isBase32Char = false := by
  decide

/-- Helper: mapping a function that fixes every element of a list is the
identity on that list. -/
theorem list_map_id_of {α : Type} (l : List α) (f : α → α) (h : ∀ x ∈ l, f x = x) :
    l.map f = l := by
  induction l with
  | nil => rfl
  | cons a t ih =>
    simp only [List.map_cons, h a (by simp)]
    rw [ih (fun x hx => h x (by simp [hx]))]

/-- C6: hashing then comparing. With bcrypt idealized as an injective salted
one-way function, `Compare(P, Set(P).hash)` is a match, and for a different
candidate `Q` it is a no-match reported as `(false, nil)` - Go's
`ErrMismatchedHashAndPassword` branch - not as an error. The policy
hypotheses mirror the claim's quantification over policy-conforming
passwords. -/
theorem password_set_compare_roundtrip (p q : String) (salt : Nat)
    (hp : passwordPolicy p = true) (hq : passwordPolicy q = true) (hne : p ≠ q) :
    (Password.Set p salt).Compare p = (true, none) ∧
    (Password.Set p salt).Compare q = (false, none) := by
  constructor
  · simp [Password.Set, Password.Compare]
  · have hqp : q ≠ p := fun h => hne h.symm
    simp [Password.Set, Password.Compare, hqp]

theorem password_set_compare_roundtrip_witness :
    (Password.Set "Abcdef1!" 3).Compare "Abcdef1!" = (true, none) ∧
    (Password.Set "Abcdef1!" 3).Compare "Zyxwvu9$" = (false, none) :=
  password_set_compare_roundtrip "Abcdef1!" "Zyxwvu9$" 3 (by decide) (by decide)
    (by decide)

/-- C9 amended: `Token.ValidateToken` validates exactly the byte length - a
plaintext passes the format check if and only if it is 26 bytes long (the
non-empty check is subsumed), so wrong-length tokens are rejected before any
storage lookup, but membership of the characters in the base32 alphabet is
not checked. -/
theorem validate_token_length_only (plain : String) :
    (validateTokenPlain plain).Valid = true ↔ plain.utf8ByteSize = 26 := by
  unfold validateTokenPlain
  by_cases h2 : plain.utf8ByteSize = 26
  · have h1 : plain ≠ "" := by
      intro e
      rw [e] at h2
      exact absurd h2 (by decide)
    simp [Validator.Check, Validator.New, Validator.AddError, Validator.Valid, h1, h2]
  · by_cases h1 : plain = ""
    · subst h1
      simp [Validator.Check, Validator.New, Validator.AddError, Validator.Valid, h2]
    · simp [Validator.Check, Validator.New, Validator.AddError, Validator.Valid, h1, h2]

/-- C10: `UserModel.Activate` and `UserModel.Delete` issue unconditional
`Exec` statements and never inspect the affected-row count; `Exec` does not
return `sql.ErrNoRows`, so their `ErrNotFound` branches are unreachable and
both calls succeed for every id. In particular, for an id with no account
row (and, for `Delete`, no dependent rows to cascade) both return success
with the state unchanged - indistinguishable from a real update/delete. -/
theorem activate_delete_always_succeed (s : DBState) (id : Nat) :
    (UserModel.Activate s id).isOk = true ∧
    (UserModel.Delete s id).isOk = true ∧
    ((∀ r ∈ s.users, r.id ≠ id) → (∀ t ∈ s.tokens, t.userId ≠ id) →
      (∀ p ∈ s.userPermissions, p.1 ≠ id) →
      UserModel.Activate s id = Except.ok s ∧ UserModel.Delete s id = Except.ok s) := by
  refine ⟨rfl, rfl, fun hu ht hp => ⟨?_, ?_⟩⟩
  · unfold UserModel.Activate
    rw [list_map_id_of]
    intro r hr
    simp [hu r hr]
  · unfold UserModel.Delete
    rw [List.filter_eq_self.2, List.filter_eq_self.2, List.filter_eq_self.2]
    · intro a ha
      simpa using hp a ha
    · intro a ha
      simpa using ht a ha
    · intro a ha
      simpa using hu a ha

theorem activate_delete_always_succeed_witness :
    UserModel.Activate verState 7 = Except.ok verState ∧
    UserModel.Delete verState 7 = Except.ok verState :=
  (activate_delete_always_succeed verState 7).2.2 (by decide) (by decide) (by decide)

/-- Helper: pointwise-equal functions map lists equally. -/
theorem list_map_ext {α β : Type} (l : List α) (f g : α → β)
    (h : ∀ x ∈ l, f x = g x) : l.map f = l.map g := by
  induction l with
  | nil => rfl
  | cons a t ih =>
    simp only [List.map_cons, h a (by simp)]
    rw [ih (fun x hx => h x (by simp [hx]))]

/-- C2 amended: the version discipline claimed for every account mutation
holds for `UserModel.Update` - success requires a stored row matching the
caller's `(id, version)`, the returned and stored version is exactly the
caller's version plus 1, rows of other accounts are untouched, and when no
row matches the caller's `(id, version)` the call reports `ErrNotFound`
(and, being a single failed statement, changes nothing) - but it does not
extend to `UserModel.Activate`, which leaves every row's version unchanged
(third conjunct; see the counterexample for its missing version condition). -/
theorem update_version_spec (s : DBState) (u : User)
    (hids : (s.users.map (fun r => r.id)).Nodup) :
    ((s.users.find? (fun r => decide (r.id = u.ID ∧ r.version = u.Version)) = none →
        UserModel.Update s u = Except.error DBError.notFound) ∧
     (∀ v' s', UserModel.Update s u = Except.ok (v', s') →
        v' = u.Version + 1 ∧
        (∃ r ∈ s.users, r.id = u.ID ∧ r.version = u.Version) ∧
        (∀ r' ∈ s'.users, r'.id = u.ID → r'.version = u.Version + 1) ∧
        (∀ r' ∈ s'.users, r'.id ≠ u.ID → r' ∈ s.users)) ∧
     (∀ id s', UserModel.Activate s id = Except.ok s' →
        s'.users.map (fun r => r.version) = s.users.map (fun r => r.version))) := by
  refine ⟨?_, ?_, ?_⟩
  · intro h
    unfold UserModel.Update
    rw [h]
  · intro v' s' h
    unfold UserModel.Update at h
    cases hf : s.users.find? (fun r => decide (r.id = u.ID ∧ r.version = u.Version)) with
    | none =>
      rw [hf] at h
      exact absurd h (by simp)
    | some r =>
      rw [hf] at h
      cases hany : s.users.any (fun r => decide (r.id ≠ u.ID) && emailEq r.email u.Email) with
      | true =>
        rw [hany] at h
        exact absurd h (by simp)
      | false =>
        rw [hany] at h
        simp only [Bool.false_eq_true, if_false, Except.ok.injEq, Prod.mk.injEq] at h
        obtain ⟨hv, hs⟩ := h
        have hpred := List.find?_some hf
        simp only [decide_eq_true_eq] at hpred
        have hmem := List.mem_of_find?_eq_some hf
        have husers : s'.users = s.users.map (fun r =>
            if r.id = u.ID ∧ r.version = u.Version then
              { r with email := u.Email, passwordHash := u.Password.hash,
                       version := r.version + 1 }
            else r) := by
          rw [← hs]
        refine ⟨hv.symm, ⟨r, hmem, hpred.1, hpred.2⟩, ?_, ?_⟩
        · intro r' hr' hid
          rw [husers] at hr'
          obtain ⟨r0, hr0, hfr0⟩ := List.mem_map.1 hr'
          by_cases hc : r0.id = u.ID ∧ r0.version = u.Version
          · rw [if_pos hc] at hfr0
            rw [← hfr0]
            simp [hc.2]
          · rw [if_neg hc] at hfr0
            subst hfr0
            have hruid : r0 = r :=
              List.inj_on_of_nodup_map hids hr0 hmem (by rw [hid, hpred.1])
            exact absurd ⟨hid, by rw [hruid, hpred.2]⟩ hc
        · intro r' hr' hid
          rw [husers] at hr'
          obtain ⟨r0, hr0, hfr0⟩ := List.mem_map.1 hr'
          by_cases hc : r0.id = u.ID ∧ r0.version = u.Version
          · rw [if_pos hc] at hfr0
            rw [← hfr0] at hid
            exact absurd hc.1 hid
          · rw [if_neg hc] at hfr0
            subst hfr0
            exact hr0
  · intro id s' h
    unfold UserModel.Activate at h
    simp only [Except.ok.injEq] at h
    have husers : s'.users = s.users.map (fun r =>
        if r.id = id then { r with activated := true } else r) := by
      rw [← h]
    rw [husers, List.map_map]
    apply list_map_ext
    intro r hr
    by_cases hc : r.id = id <;> simp [hc]

theorem update_version_spec_witness :
    UserModel.Update verState ⟨1, "dave", "d@e.com", ⟨none, none⟩, false, 3⟩ =
      Except.error DBError.notFound :=
  (update_version_spec verState ⟨1, "dave", "d@e.com", ⟨none, none⟩, false, 3⟩
    (by decide)).1 (by decide)

/-- C3 amended: `PermissionModel.Add` is not idempotent. Re-adding a
capability the account already holds makes the insert hit the
`(user_id, permission_id)` primary key and the call returns an error (and,
the failed statement having no effect, the table is unchanged - so no
duplicate row is ever created); only when the capability is not yet held
does the call succeed, appending exactly the one new pair. -/
theorem permission_add_duplicate_spec (s : DBState) (uid : Nat) (p : Permission) :
    ((uid, p) ∈ s.userPermissions →
      PermissionModel.Add s uid [p] =
        Except.error (DBError.uniqueViolation "user_permissions_pkey")) ∧
    ((uid, p) ∉ s.userPermissions →
      PermissionModel.Add s uid [p] =
        Except.ok { s with userPermissions := s.userPermissions ++ [(uid, p)] }) := by
  have hrows : (permissionsTable.filter (fun q => List.contains [p] q)).map
      (fun q => (uid, q)) = [(uid, p)] := by
    cases p <;> rfl
  constructor
  · intro hmem
    unfold PermissionModel.Add
    rw [hrows]
    simp [hmem]
  · intro hmem
    unfold PermissionModel.Add
    rw [hrows]
    simp [hmem]

theorem permission_add_duplicate_spec_witness :
    PermissionModel.Add resetState 1 [Permission.writeUser] =
      Except.ok { resetState with userPermissions := [(1, Permission.writeUser)] } :=
  (permission_add_duplicate_spec resetState 1 Permission.writeUser).2 (by decide)

/-- C5: for a stored token row (the first row of its `(account, scope)`
pair, with a hash no other row shares) whose expiry has passed,
`TokenModel.Get` still returns the row - its query has no expiry predicate -
while `UserModel.GetToken` (the authentication path, whose single predicate
conjoins hash, scope and `expiry > now`) reports `ErrNotFound`, the same
value it returns for a token that was never issued. -/
theorem get_ignores_expiry_getToken_enforces (s : DBState) (t : TokenRow) (now : Int)
    (hfind : s.tokens.find? (fun r => decide (r.userId = t.userId ∧ r.scope = t.scope)) =
      some t)
    (hhash : ∀ r ∈ s.tokens, r.hash = t.hash → r = t)
    (hexp : t.expiry ≤ now) :
    TokenModel.Get s t.userId t.scope = Except.ok ⟨"", t.hash, t.userId, t.expiry, t.scope⟩ ∧
    UserModel.GetToken s t.scope t.hash now = Except.error DBError.notFound := by
  constructor
  · unfold TokenModel.Get
    rw [hfind]
  · unfold UserModel.GetToken
    have hnone : s.tokens.find? (fun r =>
        decide (r.hash = t.hash ∧ r.scope = t.scope ∧ now < r.expiry)) = none := by
      rw [List.find?_eq_none]
      intro r hr hpred
      rw [decide_eq_true_eq] at hpred
      obtain ⟨h1, _, h3⟩ := hpred
      rw [hhash r hr h1] at h3
      exact absurd hexp (not_le.2 h3)
    rw [hnone]

theorem get_ignores_expiry_getToken_enforces_witness :
    TokenModel.Get resetState 1 TokenScope.resetPwd =
      Except.ok ⟨"", ⟨"OLDRESETTOKEN"⟩, 1, 100, TokenScope.resetPwd⟩ ∧
    UserModel.GetToken resetState TokenScope.resetPwd ⟨"OLDRESETTOKEN"⟩ 200 =
      Except.error DBError.notFound :=
  get_ignores_expiry_getToken_enforces resetState
    ⟨⟨"OLDRESETTOKEN"⟩, 1, 100, TokenScope.resetPwd⟩ 200 (by decide) (by decide)
    (by decide)

/-- Helper: adding a single capability not yet held succeeds and appends
exactly that pair. -/
theorem permission_add_single_ok (s : DBState) (uid : Nat) (p : Permission)
    (hmem : (uid, p) ∉ s.userPermissions) :
    PermissionModel.Add s uid [p] =
      Except.ok { s with userPermissions := s.userPermissions ++ [(uid, p)] } := by
  have hrows : (permissionsTable.filter (fun q => List.contains [p] q)).map
      (fun q => (uid, q)) = [(uid, p)] := by
    cases p <;> rfl
  unfold PermissionModel.Add
  rw [hrows]
  simp [hmem]

/-- C7 amended: the activation workflow, restricted to an account that does
not already hold the write capability - the restriction the counterexample
forces, since for an account that does hold it (re-activation after an email
change) the permission grant hits the `(user_id, permission_id)` primary key
and the handler fails without consuming the token. Given a well-formed
presented token whose hash resolves (with scope `activation` and
`expiry > now`) to account `u` that does not yet hold the write capability -
and whose hash no other account's token shares - the handler succeeds, the
stored row for `u` has `activated = true`, the write capability is granted,
and the activation token row is gone; re-submitting the same token to the
resulting state yields the NotFound-class "invalid or expired activation
token" response, not success, and changes nothing. -/
theorem activation_workflow (s : DBState) (plain : String) (now : Int) (u : User)
    (hfmt : (validateTokenPlain plain).Valid = true)
    (hget : UserModel.GetToken s TokenScope.activation (HashToken plain) now =
      Except.ok u)
    (hperm : (u.ID, Permission.writeUser) ∉ s.userPermissions)
    (hhash : ∀ t ∈ s.tokens, t.hash = HashToken plain →
      t.scope = TokenScope.activation → t.userId = u.ID) :
    ∃ s', activateUserHandler s plain now =
        (HResponse.okMsg "user account successfully activated", s') ∧
      (∀ r ∈ s'.users, r.id = u.ID → r.activated = true) ∧
      ((u.ID, Permission.writeUser) ∈ s'.userPermissions) ∧
      activateUserHandler s' plain now =
        (HResponse.failedValidation [("token", "invalid or expired activation token")], s') := by
  refine ⟨⟨s.users.map (fun r => if r.id = u.ID then { r with activated := true } else r),
          s.tokens.filter (fun r =>
            decide (¬ (r.userId = u.ID ∧ r.scope = TokenScope.activation))),
          s.userPermissions ++ [(u.ID, Permission.writeUser)],
          s.nextUserId⟩, ?_, ?_, ?_, ?_⟩
  · unfold activateUserHandler
    rw [if_neg (not_not_intro hfmt)]
    have hadd := permission_add_single_ok
      { s with users := (s.users.map
          (fun r => if r.id = u.ID then { r with activated := true } else r)) }
      u.ID Permission.writeUser hperm
    simp only [hget, UserModel.Activate, hadd, TokenModel.Delete]
  · intro r hr hid
    obtain ⟨r0, hr0, hfr0⟩ := List.mem_map.1 hr
    by_cases hc : r0.id = u.ID
    · rw [if_pos hc] at hfr0
      rw [← hfr0]
    · rw [if_neg hc] at hfr0
      rw [← hfr0] at hid
      exact absurd hid hc
  · exact List.mem_append_right _ (by simp)
  · unfold activateUserHandler
    rw [if_neg (not_not_intro hfmt)]
    have hnone : (s.tokens.filter (fun r =>
        decide (¬ (r.userId = u.ID ∧ r.scope = TokenScope.activation)))).find?
          (fun t => decide (t.hash = HashToken plain ∧ t.scope = TokenScope.activation ∧
            now < t.expiry)) = none := by
      rw [List.find?_eq_none]
      intro t ht hpred
      rw [decide_eq_true_eq] at hpred
      obtain ⟨ht2, hneg⟩ := List.mem_filter.1 ht
      rw [decide_eq_true_eq] at hneg
      exact hneg ⟨hhash t ht2 hpred.1 hpred.2.1, hpred.2.1⟩
    simp only [UserModel.GetToken, hnone]

theorem activation_workflow_witness :
    ∃ s', activateUserHandler actState tokA 0 =
        (HResponse.okMsg "user account successfully activated", s') ∧
      (∀ r ∈ s'.users, r.id = 1 → r.activated = true) ∧
      ((1, Permission.writeUser) ∈ s'.userPermissions) ∧
      activateUserHandler s' tokA 0 =
        (HResponse.failedValidation [("token", "invalid or expired activation token")], s') :=
  activation_workflow actState tokA 0 ⟨1, "bob", "bob@example.com", ⟨none, none⟩, false, 0⟩
    (by decide) (by decide) (by decide) (by decide)

/-- C7 counterexample: the claim as stated quantifies over every stored,
unexpired activation-scope token, but on an account that already holds the
write capability - the state the update-account workflow leaves behind after
an activated account changes its email, when re-activation is mandatory -
presenting such a token makes `Permissions.Add(user.ID, PermissionWriteUser)`
hit the `(user_id, permission_id)` primary key (the insert has no conflict
clause), so the handler returns a server error instead of succeeding, and
the activation token is not deleted: the workflow neither "grants the write
capability" nor "deletes the activation token" there (the `activated` flag,
set by the statement that ran before the failed grant, does persist on the
pool). -/
theorem activation_reactivation_cex :
    (activateUserHandler reactState tokC 0).1 = HResponse.serverError ∧
    (activateUserHandler reactState tokC 0).2.tokens =
      [⟨HashToken "CCCCCCCCCCCCCCCCCCCCCCCCCC", 1, 259200, TokenScope.activation⟩] := by
  decide
